import Mathlib

/-!
Verification development for the squads-scripting transaction pipeline.

The definitions below are a shallow embedding of the repository's
transaction-pipeline code:

* `confirmSignature` / `confirmRun` embed the retry-based confirmation
  poller of `src/utils/rpc.ts` (`confirmSignature`), with the JavaScript
  event loop made explicit: each poll response is given as a pair
  `(duration, response)` where `duration` is the wall-clock time the RPC
  round-trip takes, and timers (the 1000 ms retry timer and the 8000 ms
  overall timeout) fire in time order.  When two events fall on the same
  instant, the non-timeout event is processed first; the theorems below
  only use traces without such ties.
* `getComputeUnits`, `getPriorityFeeEstimate`, `simulateAndGetBudget` and
  `getComputeBudget` embed `src/utils/compute.ts`, with the RPC responses
  (simulation value, prioritization-fee samples) passed in explicitly.
  JavaScript numbers are modelled as exact rationals, except in
  `budgetUnitLimit`, which models the IEEE-754 double-precision product
  `computeUnits * 1.1` and its `Math.ceil` exactly: the double nearest 1.1
  lies slightly above 11/10, so the computed limit can exceed the exact
  ceiling of `c * 11/10` by one.
* `prepareTransaction` embeds the transaction assembler.
* `fromLegacyTransactionInstruction` models the interop adapter (imported
  by `src/propose.ts` from an external package, hence modelled from the
  specification), and `toLegacyInstruction` embeds the repository's own
  modern-to-legacy conversion used by `createSquadsTransactionMessage`.
-/

namespace SquadsScripting

/-! ## Confirmation poller (src/utils/rpc.ts, confirmSignature) -/

/-- Constant `MAX_RETRIES` from `confirmSignature`. -/
def MAX_RETRIES : ℕ := 7

/-- Constant `RETRY_INTERVAL` (ms between retries) from `confirmSignature`. -/
def RETRY_INTERVAL : ℕ := 1000

/-- Constant `TIMEOUT_DURATION` (overall timeout in ms) from `confirmSignature`. -/
def TIMEOUT_DURATION : ℕ := 8000

/-- One response of the `getTransaction` status poll: the transaction was
found (with an optional on-chain error payload, modelling
`tx.meta.err` after `JSON.stringify`), not found yet (`tx` null), or the
RPC call itself threw. -/
inductive PollResp where
  | found (err : Option String)
  | notFound
  | rpcError (msg : String)
deriving DecidableEq, Repr

/-- The settled value of the promise returned by `confirmSignature`. -/
inductive Outcome where
  | resolved (sig : String)
  | rejected (msg : String)
deriving DecidableEq, Repr

/-- Message built at rpc.ts line 84: error embedding the on-chain error payload. -/
def onChainFailureMsg (errPayload : String) : String :=
  "Transaction failed on-chain: " ++ errPayload

/-- Message built at rpc.ts line 101 when the retry ceiling is reached. -/
def notFoundMsg (sig : String) : String :=
  "Transaction not found after " ++ toString MAX_RETRIES ++ " attempts: " ++ sig

/-- Message built at rpc.ts line 116 when the retry ceiling is reached on RPC errors. -/
def rpcFailureMsg (errMsg : String) : String :=
  "Failed to confirm transaction after " ++ toString MAX_RETRIES ++ " attempts: " ++ errMsg

/-- Message built at rpc.ts line 131 when the overall timeout fires. -/
def timeoutMsg (sig : String) : String :=
  "Transaction confirmation timeout after " ++ toString TIMEOUT_DURATION ++ "ms: " ++ sig

/-- Full observable record of one `confirmSignature` invocation:
the promise settlement, when and how it settled, how many `getTransaction`
polls were issued, how many times `retryCount++` ran, how many times the
`resolve` and `reject` callbacks were invoked in total (the promise itself
only takes the first), how many timers fired after settlement, and how many
polls were issued after settlement. -/
structure RunResult where
  outcome : Outcome
  settleTime : ℕ
  settledByTimeout : Bool
  pollsIssued : ℕ
  retryIncrements : ℕ
  resolveCalls : ℕ
  rejectCalls : ℕ
  timerFiresAfterSettle : ℕ
  pollsAfterSettle : ℕ
deriving DecidableEq, Repr

/-- The entry guard of `checkConfirmation` (rpc.ts line 72):
`if (isResolved) return;` — no poll is issued when the promise has settled. -/
def guardedCheckPolls (isResolved : Bool) : ℕ :=
  if isResolved then 0 else 1

/-- Extra observable activity caused by one event processed after the
promise has already settled (the response handler after the `await` does not
re-check `isResolved`): counts of extra `resolve` calls, extra `reject`
calls, extra `retryCount++` increments, timer firings, and polls issued by
a post-settlement `checkConfirmation` run. -/
structure SettledTail where
  resolveCalls : ℕ
  rejectCalls : ℕ
  retryIncrements : ℕ
  timerFires : ℕ
  pollsAfter : ℕ
deriving DecidableEq, Repr

/-- Behaviour of the in-flight response handler (rpc.ts lines 81-125) when
it runs after the overall timeout has already settled the promise: a found
transaction still triggers a (now ineffective) `resolve`/`reject` call, a
not-found or RPC-error response still increments the retry count and, below
the ceiling, schedules one more retry timer whose `checkConfirmation` run is
stopped by the `isResolved` entry guard. -/
def settledTail (c : ℕ) (resp : PollResp) : SettledTail :=
  match resp with
  | .found (some _) => ⟨0, 1, 0, 0, 0⟩
  | .found none => ⟨1, 0, 0, 0, 0⟩
  | .notFound =>
      if MAX_RETRIES ≤ c + 1 then ⟨0, 1, 1, 0, 0⟩
      else ⟨0, 0, 1, 1, guardedCheckPolls true⟩
  | .rpcError _ =>
      if MAX_RETRIES ≤ c + 1 then ⟨0, 1, 1, 0, 0⟩
      else ⟨0, 0, 1, 1, guardedCheckPolls true⟩

/-- Event-loop semantics of `confirmSignature` from the moment a
`getTransaction` poll has just been issued at wall-clock time `t` with
current retry count `c`.  The list holds `(duration, response)` pairs for
this and all subsequent polls; an exhausted list means the in-flight RPC
never returns, so only the overall timeout can settle the promise. -/
def confirmRun (sig : String) : ℕ → ℕ → List (ℕ × PollResp) → RunResult
  | _, _, [] =>
      { outcome := .rejected (timeoutMsg sig), settleTime := TIMEOUT_DURATION,
        settledByTimeout := true, pollsIssued := 1, retryIncrements := 0,
        resolveCalls := 0, rejectCalls := 1, timerFiresAfterSettle := 0,
        pollsAfterSettle := 0 }
  | t, c, (d, resp) :: rest =>
      if TIMEOUT_DURATION < t + d then
        let tail := settledTail c resp
        { outcome := .rejected (timeoutMsg sig), settleTime := TIMEOUT_DURATION,
          settledByTimeout := true, pollsIssued := 1,
          retryIncrements := tail.retryIncrements,
          resolveCalls := tail.resolveCalls, rejectCalls := 1 + tail.rejectCalls,
          timerFiresAfterSettle := tail.timerFires,
          pollsAfterSettle := tail.pollsAfter }
      else
        match resp with
        | .found (some e) =>
            { outcome := .rejected (onChainFailureMsg e), settleTime := t + d,
              settledByTimeout := false, pollsIssued := 1, retryIncrements := 0,
              resolveCalls := 0, rejectCalls := 1, timerFiresAfterSettle := 0,
              pollsAfterSettle := 0 }
        | .found none =>
            { outcome := .resolved sig, settleTime := t + d,
              settledByTimeout := false, pollsIssued := 1, retryIncrements := 0,
              resolveCalls := 1, rejectCalls := 0, timerFiresAfterSettle := 0,
              pollsAfterSettle := 0 }
        | .notFound =>
            if MAX_RETRIES ≤ c + 1 then
              { outcome := .rejected (notFoundMsg sig), settleTime := t + d,
                settledByTimeout := false, pollsIssued := 1, retryIncrements := 1,
                resolveCalls := 0, rejectCalls := 1, timerFiresAfterSettle := 0,
                pollsAfterSettle := 0 }
            else if TIMEOUT_DURATION < t + d + RETRY_INTERVAL then
              { outcome := .rejected (timeoutMsg sig), settleTime := TIMEOUT_DURATION,
                settledByTimeout := true, pollsIssued := 1, retryIncrements := 1,
                resolveCalls := 0, rejectCalls := 1, timerFiresAfterSettle := 1,
                pollsAfterSettle := guardedCheckPolls true }
            else
              let res := confirmRun sig (t + d + RETRY_INTERVAL) (c + 1) rest
              { res with pollsIssued := res.pollsIssued + 1,
                         retryIncrements := res.retryIncrements + 1 }
        | .rpcError m =>
            if MAX_RETRIES ≤ c + 1 then
              { outcome := .rejected (rpcFailureMsg m), settleTime := t + d,
                settledByTimeout := false, pollsIssued := 1, retryIncrements := 1,
                resolveCalls := 0, rejectCalls := 1, timerFiresAfterSettle := 0,
                pollsAfterSettle := 0 }
            else if TIMEOUT_DURATION < t + d + RETRY_INTERVAL then
              { outcome := .rejected (timeoutMsg sig), settleTime := TIMEOUT_DURATION,
                settledByTimeout := true, pollsIssued := 1, retryIncrements := 1,
                resolveCalls := 0, rejectCalls := 1, timerFiresAfterSettle := 1,
                pollsAfterSettle := guardedCheckPolls true }
            else
              let res := confirmRun sig (t + d + RETRY_INTERVAL) (c + 1) rest
              { res with pollsIssued := res.pollsIssued + 1,
                         retryIncrements := res.retryIncrements + 1 }

/-- `confirmSignature`: the first `checkConfirmation` runs immediately at
time 0 with retry count 0 (rpc.ts line 140). -/
def confirmSignature (sig : String) (resps : List (ℕ × PollResp)) : RunResult :=
  confirmRun sig 0 0 resps

/-! ## Resource estimator (src/utils/compute.ts) -/

/-- Constant `DEFAULT_COMPUTE_UNITS` from compute.ts. -/
def DEFAULT_COMPUTE_UNITS : ℕ := 1400000

/-- Constant `DEFAULT_PRIORITY_FEE` from compute.ts (a JavaScript number,
modelled as a rational). -/
def DEFAULT_PRIORITY_FEE : ℚ := 50000

/-- Executable substring test on character lists (prefix at some position),
used to model JavaScript `String.prototype.includes`. -/
def charsHavePrefix : List Char → List Char → Bool
  | [], _ => true
  | _ :: _, [] => false
  | a :: as, b :: bs => a == b && charsHavePrefix as bs

/-- Executable substring test on character lists. -/
def charsHaveSub (pat : List Char) : List Char → Bool
  | [] => charsHavePrefix pat []
  | b :: bs => charsHavePrefix pat (b :: bs) || charsHaveSub pat bs

/-- Model of the JavaScript `log.includes(pat)` substring test. -/
def includes (s pat : String) : Bool :=
  charsHaveSub pat.data s.data

/-- The on-chain error object of a simulation result.  The only property the
code reads is `InsufficientFundsForRent` (compute.ts line 64). -/
structure ChainErr where
  insufficientFundsForRent : Bool
deriving DecidableEq, Repr

/-- The fields of `simulation.value` read by `getComputeUnits`: the nullable
error, the nullable log array, and the possibly absent consumed-unit count. -/
structure SimulationValue where
  err : Option ChainErr
  logs : Option (List String)
  unitsConsumed : Option ℕ
deriving DecidableEq, Repr

/-- The per-log pattern scan of the `for` loop at compute.ts lines 87-108:
on one log line, the first matching pattern (in source order) determines the
thrown message. -/
def classifyLog (log : String) : Option String :=
  if includes log "InvalidLockupAmount" then
    some "Invalid staked amount: Should be > 1"
  else if includes log "0x1771" || includes log "0x178c" then
    some "Maximum slippage reached"
  else if includes log "insufficient funds" then
    some "Insufficient USDC balance for this transaction"
  else if includes log "Error: insufficient funds" then
    some "Insufficient USDC balance for this transaction"
  else if includes log "Program 11111111111111111111111111111111 failed: custom program error: 0x1"
      || includes log "insufficient lamports" then
    some "You need more SOL to pay for transaction fees"
  else
    none

/-- `Number(simulation.value.unitsConsumed) || DEFAULT_COMPUTE_UNITS`
(compute.ts line 113): an absent or zero count falls back to the default. -/
def unitsOrDefault (u : Option ℕ) : ℕ :=
  match u with
  | none => DEFAULT_COMPUTE_UNITS
  | some 0 => DEFAULT_COMPUTE_UNITS
  | some n => n

deriving instance DecidableEq for Except

/-- Observable result of `getComputeUnits`: the returned unit count or the
thrown error message, plus the `lastLogs` slice printed to the console at
compute.ts line 84 (the only place the raw log excerpt is surfaced). -/
structure ComputeUnitsOutput where
  result : Except String ℕ
  consoleLastLogs : Option (List String)
deriving DecidableEq, Repr

/-- `getComputeUnits` (compute.ts lines 53-114) over an explicit simulation
response.  The error-classification path runs only when both
`simulation.value.err` and `simulation.value.logs` are truthy. -/
def getComputeUnits (sim : SimulationValue) : ComputeUnitsOutput :=
  match sim.err, sim.logs with
  | some e, some logs =>
      if e.insufficientFundsForRent then
        ⟨.error "You need more SOL to pay for transaction fees", none⟩
      else if logs.length = 0 then
        ⟨.error "You need more SOL to pay for transaction fees", none⟩
      else if logs.any (fun log =>
          includes log "insufficient funds" || includes log "Error: insufficient funds") then
        ⟨.error "Insufficient USDC balance for this transaction", none⟩
      else
        let lastLogs := logs.drop (logs.length - 10)
        match logs.findSome? classifyLog with
        | some m => ⟨.error m, some lastLogs⟩
        | none => ⟨.error "Transaction simulation error", some lastLogs⟩
  | _, _ => ⟨.ok (unitsOrDefault sim.unitsConsumed), none⟩

/-- The median computation of `getPriorityFeeEstimate` (compute.ts lines
152-160): sort ascending (the stable JavaScript numeric sort is modelled by
insertion sort), take the value at index `⌊n / 2⌋`, and average the two
middle values when the sample count is even. -/
def medianFee (fees : List ℚ) : ℚ :=
  let sortedFees := List.insertionSort (fun a b => a ≤ b) fees
  let medianIndex := fees.length / 2
  let firstMedian := sortedFees.getD medianIndex 0
  if fees.length % 2 = 0 then
    (sortedFees.getD (medianIndex - 1) 0 + firstMedian) / 2
  else
    firstMedian

/-- `getPriorityFeeEstimate` (compute.ts lines 116-169) over the list of
`prioritizationFee` samples of the RPC response, with `null` entries kept as
`none` (the code filters them out first).  A missing result array and the
no-valid-sample case both fall back to the default; otherwise the median is
clamped to `[DEFAULT_PRIORITY_FEE, DEFAULT_PRIORITY_FEE * 10]`. -/
def getPriorityFeeEstimate (response : Option (List (Option ℚ))) : ℚ :=
  match response with
  | none => DEFAULT_PRIORITY_FEE
  | some result =>
      let fees := result.filterMap id
      if fees.length = 0 then DEFAULT_PRIORITY_FEE
      else min (max (medianFee fees) DEFAULT_PRIORITY_FEE) (DEFAULT_PRIORITY_FEE * 10)

/-- Round-to-nearest of `q + r/d` (with `r < d`) to an integer, ties to
even — the IEEE-754 rounding of a positive value onto a grid, after the
value has been scaled so the grid is the integers. -/
def roundHalfEven (q r d : ℕ) : ℕ :=
  if 2 * r < d then q
  else if d < 2 * r then q + 1
  else if q % 2 = 0 then q else q + 1

/-- `Math.ceil(computeUnits * 1.1)` (compute.ts line 217) in IEEE-754
double-precision arithmetic.  The literal 1.1 is not representable; the
double nearest to it is `4953959590107546 / 2^52`, slightly above 11/10.
An integer count (at most `2^53`, far above any real consumption value)
converts to a double exactly, so the exact product is `m / 2^52` with
`m = computeUnits * 4953959590107546`; the doubles around the product are
the multiples of `2^(Nat.log2 m - 52 - 52)`, and the product is rounded to
the nearest such multiple (ties to even) before the ceiling — which is
exact on the rounded double — is taken. -/
def budgetUnitLimit (computeUnits : ℕ) : ℕ :=
  if computeUnits = 0 then 0
  else
    let m := computeUnits * 4953959590107546
    let d := 2 ^ (Nat.log2 m - 52)
    (roundHalfEven (m / d) (m % d) d * d + (2 ^ 52 - 1)) / 2 ^ 52

/-! ## Transaction assembler (compute.ts lines 171-250, prepare.ts) -/

/-- An instruction as it flows through the assembler: the two
compute-budget instructions the pipeline injects, or an opaque business
instruction. -/
inductive KitInstruction where
  | setComputeUnitLimit (units : ℕ)
  | setComputeUnitPrice (microLamports : ℚ)
  | business (programAddress : String) (data : List ℕ)
deriving DecidableEq, Repr

/-- `simulateAndGetBudget` (compute.ts lines 171-225): simulate, then build
the unit-limit instruction from the 10%-padded consumption and the
unit-price instruction from the fee estimate.  The network responses are
explicit inputs. -/
def simulateAndGetBudget (sim : SimulationValue)
    (feeResponse : Option (List (Option ℚ))) :
    Except String (KitInstruction × KitInstruction) :=
  match (getComputeUnits sim).result with
  | .error e => .error e
  | .ok computeUnits =>
      .ok (.setComputeUnitLimit (budgetUnitLimit computeUnits),
           .setComputeUnitPrice (getPriorityFeeEstimate feeResponse))

/-- `getComputeBudget` (compute.ts lines 227-250): on success, return
`[computeBudgetIx, priorityFeeIx, ...instructions]`. -/
def getComputeBudget (instructions : List KitInstruction)
    (sim : SimulationValue) (feeResponse : Option (List (Option ℚ))) :
    Except String (List KitInstruction) :=
  match simulateAndGetBudget sim feeResponse with
  | .error e => .error e
  | .ok (computeBudgetIx, priorityFeeIx) =>
      .ok (computeBudgetIx :: priorityFeeIx :: instructions)

/-- The compiled transaction envelope produced by `prepareTransaction`:
fee payer, blockhash lifetime, and the final instruction list. -/
structure TransactionEnvelope where
  feePayer : String
  blockhash : String
  instructions : List KitInstruction
deriving DecidableEq, Repr

/-- `prepareTransaction` (prepare utility): fetch a blockhash, obtain the
budget-prefixed instruction list from `getComputeBudget`, and compile the
message carrying exactly that list. -/
def prepareTransaction (instructions : List KitInstruction) (feePayer : String)
    (blockhash : String) (sim : SimulationValue)
    (feeResponse : Option (List (Option ℚ))) :
    Except String TransactionEnvelope :=
  match getComputeBudget instructions sim feeResponse with
  | .error e => .error e
  | .ok finalInstructions => .ok ⟨feePayer, blockhash, finalInstructions⟩

/-! ## Instruction interop adapter (src/propose.ts line 173, squads utils) -/

/-- The four account roles of the modern instruction encoding. -/
inductive AccountRole where
  | readonly
  | writable
  | readonlySigner
  | writableSigner
deriving DecidableEq, Repr

/-- A legacy account entry: public key plus the two boolean flags. -/
structure LegacyAccountMeta where
  pubkey : String
  isSigner : Bool
  isWritable : Bool
deriving DecidableEq, Repr

/-- A legacy instruction: program id, raw account list, byte buffer. -/
structure LegacyTransactionInstruction where
  programId : String
  keys : List LegacyAccountMeta
  data : List ℕ
deriving DecidableEq, Repr

/-- A modern account entry: address plus a typed role. -/
structure ModernAccountMeta where
  address : String
  role : AccountRole
deriving DecidableEq, Repr

/-- A modern instruction: program address, typed accounts, byte array. -/
structure ModernInstruction where
  programAddress : String
  accounts : List ModernAccountMeta
  data : List ℕ
deriving DecidableEq, Repr

/-- Modelled from the spec: the role mapping of the legacy-to-modern
adapter `fromLegacyTransactionInstruction`, which `src/propose.ts` imports
from an external package whose source is not part of this repository.  Per
the specification (section 4.4), each legacy `(isSigner, isWritable)`
boolean pair maps to exactly one of the four modern roles. -/
def roleFromFlags (isSigner isWritable : Bool) : AccountRole :=
  match isSigner, isWritable with
  | true, true => .writableSigner
  | true, false => .readonlySigner
  | false, true => .writable
  | false, false => .readonly

/-- Modelled from the spec: `fromLegacyTransactionInstruction` maps the
legacy program identifier and byte buffer to their modern equivalents
unchanged and converts each account entry with `roleFromFlags`. -/
def fromLegacyTransactionInstruction (ix : LegacyTransactionInstruction) :
    ModernInstruction :=
  { programAddress := ix.programId,
    accounts := ix.keys.map (fun k => ⟨k.pubkey, roleFromFlags k.isSigner k.isWritable⟩),
    data := ix.data }

/-- The repository's own modern-to-legacy signer flag
(`createSquadsTransactionMessage`, squads utils line 368): a role is a
signer when it is `WRITABLE_SIGNER` or `READONLY_SIGNER`. -/
def legacyIsSigner (r : AccountRole) : Bool :=
  r == .writableSigner || r == .readonlySigner

/-- The repository's own modern-to-legacy writable flag
(`createSquadsTransactionMessage`, squads utils line 369): a role is
writable when it is `WRITABLE` or `WRITABLE_SIGNER`. -/
def legacyIsWritable (r : AccountRole) : Bool :=
  r == .writable || r == .writableSigner

/-- The modern-to-legacy conversion of `createSquadsTransactionMessage`
(squads utils lines 362-373): rebuild a legacy instruction from a modern
one, deriving the boolean flags from the role. -/
def toLegacyInstruction (ix : ModernInstruction) : LegacyTransactionInstruction :=
  { programId := ix.programAddress,
    keys := ix.accounts.map (fun a => ⟨a.address, legacyIsSigner a.role, legacyIsWritable a.role⟩),
    data := ix.data }

/-! ## Theorems -/

/-- A prefix of not-found polls with instantaneous responses, starting below
the retry ceiling, only advances the clock by one retry interval per poll
and adds one issued poll and one retry increment each, without settling. -/
theorem confirmRun_replicate_notFound (sig : String) (n : ℕ) :
    ∀ (c : ℕ) (rest : List (ℕ × PollResp)), c + n < MAX_RETRIES →
    confirmRun sig (RETRY_INTERVAL * c) c
        (List.replicate n (0, PollResp.notFound) ++ rest) =
      { confirmRun sig (RETRY_INTERVAL * (c + n)) (c + n) rest with
          pollsIssued :=
            (confirmRun sig (RETRY_INTERVAL * (c + n)) (c + n) rest).pollsIssued + n,
          retryIncrements :=
            (confirmRun sig (RETRY_INTERVAL * (c + n)) (c + n) rest).retryIncrements + n } := by
  induction n with
  | zero => intro c rest _; simp
  | succ n ih =>
      intro c rest h
      have h1 : ¬ (TIMEOUT_DURATION < RETRY_INTERVAL * c + 0) := by
        simp only [TIMEOUT_DURATION, RETRY_INTERVAL, MAX_RETRIES] at *
        omega
      have h2 : ¬ (MAX_RETRIES ≤ c + 1) := by
        simp only [MAX_RETRIES] at *
        omega
      have h3 : ¬ (TIMEOUT_DURATION < RETRY_INTERVAL * c + 0 + RETRY_INTERVAL) := by
        simp only [TIMEOUT_DURATION, RETRY_INTERVAL, MAX_RETRIES] at *
        omega
      rw [List.replicate_succ, List.cons_append]
      rw [confirmRun]
      rw [if_neg h1, if_neg h2, if_neg h3]
      have h4 : RETRY_INTERVAL * c + 0 + RETRY_INTERVAL = RETRY_INTERVAL * (c + 1) := by
        ring
      rw [h4]
      have h5 : c + 1 + n < MAX_RETRIES := by omega
      rw [ih (c + 1) rest h5]
      have h6 : c + 1 + n = c + (n + 1) := by omega
      rw [h6]
      simp [Nat.add_assoc]

/-- Claim C1: within one poller invocation, a poll that finds the
transaction with a non-null on-chain error makes the poller reject
immediately with an error embedding that payload, issuing no further polls
(the on-chain failure is never retried); a poll that finds the transaction
with no error makes the poller resolve with the signature. -/
theorem confirmation_found_settles_immediately (sig e : String) (n : ℕ)
    (extra : List (ℕ × PollResp)) (h : n < MAX_RETRIES) :
    ((confirmSignature sig
        (List.replicate n (0, PollResp.notFound) ++ (0, PollResp.found (some e)) :: extra)).outcome
          = Outcome.rejected (onChainFailureMsg e)
      ∧ (confirmSignature sig
        (List.replicate n (0, PollResp.notFound) ++ (0, PollResp.found (some e)) :: extra)).pollsIssued
          = n + 1
      ∧ (confirmSignature sig
        (List.replicate n (0, PollResp.notFound) ++ (0, PollResp.found (some e)) :: extra)).resolveCalls
          = 0
      ∧ (confirmSignature sig
        (List.replicate n (0, PollResp.notFound) ++ (0, PollResp.found (some e)) :: extra)).rejectCalls
          = 1
      ∧ (confirmSignature sig
        (List.replicate n (0, PollResp.notFound) ++ (0, PollResp.found (some e)) :: extra)).timerFiresAfterSettle
          = 0)
    ∧ ((confirmSignature sig
        (List.replicate n (0, PollResp.notFound) ++ (0, PollResp.found none) :: extra)).outcome
          = Outcome.resolved sig
      ∧ (confirmSignature sig
        (List.replicate n (0, PollResp.notFound) ++ (0, PollResp.found none) :: extra)).pollsIssued
          = n + 1
      ∧ (confirmSignature sig
        (List.replicate n (0, PollResp.notFound) ++ (0, PollResp.found none) :: extra)).resolveCalls
          = 1
      ∧ (confirmSignature sig
        (List.replicate n (0, PollResp.notFound) ++ (0, PollResp.found none) :: extra)).rejectCalls
          = 0) := by
  have hno : ¬ (TIMEOUT_DURATION < RETRY_INTERVAL * n + 0) := by
    simp only [TIMEOUT_DURATION, RETRY_INTERVAL, MAX_RETRIES] at *
    omega
  have keyA := confirmRun_replicate_notFound sig n 0
      ((0, PollResp.found (some e)) :: extra) (by simpa using h)
  have keyB := confirmRun_replicate_notFound sig n 0
      ((0, PollResp.found none) :: extra) (by simpa using h)
  simp only [Nat.mul_zero, Nat.zero_add] at keyA keyB
  have hevA : confirmRun sig (RETRY_INTERVAL * n) n ((0, PollResp.found (some e)) :: extra) =
      { outcome := .rejected (onChainFailureMsg e), settleTime := RETRY_INTERVAL * n + 0,
        settledByTimeout := false, pollsIssued := 1, retryIncrements := 0,
        resolveCalls := 0, rejectCalls := 1, timerFiresAfterSettle := 0,
        pollsAfterSettle := 0 } := by
    rw [confirmRun, if_neg hno]
  have hevB : confirmRun sig (RETRY_INTERVAL * n) n ((0, PollResp.found none) :: extra) =
      { outcome := .resolved sig, settleTime := RETRY_INTERVAL * n + 0,
        settledByTimeout := false, pollsIssued := 1, retryIncrements := 0,
        resolveCalls := 1, rejectCalls := 0, timerFiresAfterSettle := 0,
        pollsAfterSettle := 0 } := by
    rw [confirmRun, if_neg hno]
  rw [hevA] at keyA
  rw [hevB] at keyB
  simp only [confirmSignature, keyA, keyB]
  refine ⟨⟨?_, ?_, ?_, ?_, ?_⟩, ?_, ?_, ?_, ?_⟩ <;> first | trivial | omega

/-- Witness for claim C1 at a concrete trace: two instantaneous not-found
polls followed by a found-with-error poll reject immediately, and the same
prefix followed by a found-with-no-error poll resolves. -/
theorem confirmation_found_settles_immediately_witness :
    2 < MAX_RETRIES ∧
    (confirmSignature "sigW"
        (List.replicate 2 (0, PollResp.notFound) ++ (0, PollResp.found (some "custom error 42")) :: [])).outcome
      = Outcome.rejected (onChainFailureMsg "custom error 42") ∧
    (confirmSignature "sigW"
        (List.replicate 2 (0, PollResp.notFound) ++ (0, PollResp.found (some "custom error 42")) :: [])).pollsIssued
      = 3 :=
  ⟨by decide,
   (confirmation_found_settles_immediately "sigW" "custom error 42" 2 [] (by decide)).1.1,
   (confirmation_found_settles_immediately "sigW" "custom error 42" 2 [] (by decide)).1.2.1⟩

/-- Claim C2: with every poll reporting not-found, the retry count is
incremented on each poll and the poller rejects with the
"not found after 7 attempts" error once the ceiling of `MAX_RETRIES = 7` is
reached; exactly six not-found responses followed by a found-with-no-error
response resolve successfully.  Polls are retried at the fixed 1000 ms
interval under the independent 8000 ms wall-clock timeout, and whichever
bound is hit first terminates the wait: with instantaneous polls the retry
ceiling fires at 6000 ms (before the timeout), while a poll that never
returns is terminated by the timeout at 8000 ms. -/
theorem confirmation_retry_ceiling_and_timeout (sig : String)
    (extra : List (ℕ × PollResp)) :
    MAX_RETRIES = 7 ∧ RETRY_INTERVAL = 1000 ∧ TIMEOUT_DURATION = 8000
    ∧ (confirmSignature sig
        (List.replicate MAX_RETRIES (0, PollResp.notFound) ++ extra)).outcome
        = Outcome.rejected (notFoundMsg sig)
    ∧ notFoundMsg sig = "Transaction not found after 7 attempts: " ++ sig
    ∧ (confirmSignature sig
        (List.replicate MAX_RETRIES (0, PollResp.notFound) ++ extra)).pollsIssued = MAX_RETRIES
    ∧ (confirmSignature sig
        (List.replicate MAX_RETRIES (0, PollResp.notFound) ++ extra)).retryIncrements = MAX_RETRIES
    ∧ (confirmSignature sig
        (List.replicate MAX_RETRIES (0, PollResp.notFound) ++ extra)).settledByTimeout = false
    ∧ (confirmSignature sig
        (List.replicate MAX_RETRIES (0, PollResp.notFound) ++ extra)).settleTime
        = (MAX_RETRIES - 1) * RETRY_INTERVAL
    ∧ (confirmSignature sig
        (List.replicate MAX_RETRIES (0, PollResp.notFound) ++ extra)).settleTime < TIMEOUT_DURATION
    ∧ (confirmSignature sig
        (List.replicate (MAX_RETRIES - 1) (0, PollResp.notFound) ++ (0, PollResp.found none) :: extra)).outcome
        = Outcome.resolved sig
    ∧ (confirmSignature sig
        (List.replicate (MAX_RETRIES - 1) (0, PollResp.notFound) ++ (0, PollResp.found none) :: extra)).pollsIssued
        = MAX_RETRIES
    ∧ (confirmSignature sig []).outcome = Outcome.rejected (timeoutMsg sig)
    ∧ timeoutMsg sig = "Transaction confirmation timeout after 8000ms: " ++ sig
    ∧ (confirmSignature sig []).settleTime = TIMEOUT_DURATION
    ∧ (confirmSignature sig []).settledByTimeout = true := by
  have hsplit : List.replicate MAX_RETRIES ((0 : ℕ), PollResp.notFound) ++ extra =
      List.replicate 6 ((0 : ℕ), PollResp.notFound) ++ ((0, PollResp.notFound) :: extra) := by
    rw [show MAX_RETRIES = 6 + 1 from rfl, List.replicate_succ']
    rw [List.append_assoc, List.singleton_append]
  have keyA := confirmRun_replicate_notFound sig 6 0
      ((0, PollResp.notFound) :: extra) (by decide)
  have keyB := confirmRun_replicate_notFound sig 6 0
      ((0, PollResp.found none) :: extra) (by decide)
  simp only [Nat.mul_zero, Nat.zero_add] at keyA keyB
  have hevA : confirmRun sig (RETRY_INTERVAL * 6) 6 ((0, PollResp.notFound) :: extra) =
      { outcome := .rejected (notFoundMsg sig), settleTime := RETRY_INTERVAL * 6 + 0,
        settledByTimeout := false, pollsIssued := 1, retryIncrements := 1,
        resolveCalls := 0, rejectCalls := 1, timerFiresAfterSettle := 0,
        pollsAfterSettle := 0 } := by
    rw [confirmRun, if_neg (by decide), if_pos (by decide)]
  have hevB : confirmRun sig (RETRY_INTERVAL * 6) 6 ((0, PollResp.found none) :: extra) =
      { outcome := .resolved sig, settleTime := RETRY_INTERVAL * 6 + 0,
        settledByTimeout := false, pollsIssued := 1, retryIncrements := 0,
        resolveCalls := 1, rejectCalls := 0, timerFiresAfterSettle := 0,
        pollsAfterSettle := 0 } := by
    rw [confirmRun, if_neg (by decide)]
  rw [hevA] at keyA
  rw [hevB] at keyB
  have hevC : confirmRun sig 0 0 ([] : List (ℕ × PollResp)) =
      { outcome := .rejected (timeoutMsg sig), settleTime := TIMEOUT_DURATION,
        settledByTimeout := true, pollsIssued := 1, retryIncrements := 0,
        resolveCalls := 0, rejectCalls := 1, timerFiresAfterSettle := 0,
        pollsAfterSettle := 0 } := rfl
  simp only [confirmSignature, hsplit, keyA,
    show MAX_RETRIES - 1 = 6 from rfl, keyB, hevC]
  refine ⟨rfl, rfl, rfl, ?_, ?_, ?_, ?_, ?_, ?_, ?_, ?_, ?_, ?_, ?_, ?_, ?_⟩ <;> trivial

/-- Settlement discipline of the poller loop, for every start time and
retry count: at least one and at most two `resolve`/`reject` calls occur,
at most one timer fires after settlement, no poll is ever issued after
settlement, and when the promise is settled by a poll response (not by the
overall timeout) exactly one call occurs and no residual timer fires. -/
theorem confirmRun_discipline (sig : String) :
    ∀ (resps : List (ℕ × PollResp)) (t c : ℕ),
      1 ≤ (confirmRun sig t c resps).resolveCalls + (confirmRun sig t c resps).rejectCalls ∧
      (confirmRun sig t c resps).resolveCalls + (confirmRun sig t c resps).rejectCalls ≤ 2 ∧
      (confirmRun sig t c resps).timerFiresAfterSettle ≤ 1 ∧
      (confirmRun sig t c resps).pollsAfterSettle = 0 ∧
      ((confirmRun sig t c resps).settledByTimeout = false →
        (confirmRun sig t c resps).resolveCalls + (confirmRun sig t c resps).rejectCalls = 1 ∧
        (confirmRun sig t c resps).timerFiresAfterSettle = 0) := by
  intro resps
  induction resps with
  | nil => intro t c; simp [confirmRun]
  | cons head rest ih =>
      intro t c
      obtain ⟨d, resp⟩ := head
      by_cases h1 : TIMEOUT_DURATION < t + d
      · simp only [confirmRun, if_pos h1]
        cases resp with
        | found err =>
            cases err <;> simp [settledTail]
        | notFound =>
            by_cases h2 : MAX_RETRIES ≤ c + 1 <;>
              simp [settledTail, guardedCheckPolls, h2]
        | rpcError m =>
            by_cases h2 : MAX_RETRIES ≤ c + 1 <;>
              simp [settledTail, guardedCheckPolls, h2]
      · simp only [confirmRun, if_neg h1]
        cases resp with
        | found err => cases err <;> simp
        | notFound =>
            by_cases h2 : MAX_RETRIES ≤ c + 1
            · simp [h2]
            · by_cases h3 : TIMEOUT_DURATION < t + d + RETRY_INTERVAL
              · simp [h2, h3, guardedCheckPolls]
              · simp only [if_neg h2, if_neg h3]
                simpa using ih (t + d + RETRY_INTERVAL) (c + 1)
        | rpcError m =>
            by_cases h2 : MAX_RETRIES ≤ c + 1
            · simp [h2]
            · by_cases h3 : TIMEOUT_DURATION < t + d + RETRY_INTERVAL
              · simp [h2, h3, guardedCheckPolls]
              · simp only [if_neg h2, if_neg h3]
                simpa using ih (t + d + RETRY_INTERVAL) (c + 1)

/-- Claim C3 counterexample: for the invocation whose single poll takes
8500 ms and then reports the transaction found with no error, the overall
timeout fires first (calling `reject`) and the late response handler still
calls `resolve` — both of {resolve, reject} fire.  For the variant whose
late response is not-found, the handler schedules a retry timer that fires
after settlement, so a residual timer does fire. -/
theorem confirmation_settlement_double_fire :
    (confirmSignature "sigC" [(8500, PollResp.found none)]).resolveCalls = 1 ∧
    (confirmSignature "sigC" [(8500, PollResp.found none)]).rejectCalls = 1 ∧
    (confirmSignature "sigC" [(8500, PollResp.found none)]).outcome
      = Outcome.rejected (timeoutMsg "sigC") ∧
    (confirmSignature "sigC" [(8500, PollResp.notFound)]).timerFiresAfterSettle = 1 := by
  refine ⟨rfl, rfl, rfl, rfl⟩

/-- Claim C3 (amended): the promise of each poller invocation settles
exactly once, and no poll is ever issued after settlement (the
`checkConfirmation` entry guard stops post-settlement timer runs).  When
settlement comes from a poll response, exactly one of {resolve, reject} is
called and no residual timer fires.  When the overall timeout settles the
promise while a poll is in flight, the late response handler may call
resolve/reject one extra time (ignored by the settled promise) and at most
one residual retry timer fires without issuing a poll. -/
theorem confirmation_settlement_exclusivity (sig : String)
    (resps : List (ℕ × PollResp)) :
    1 ≤ (confirmSignature sig resps).resolveCalls + (confirmSignature sig resps).rejectCalls ∧
    (confirmSignature sig resps).resolveCalls + (confirmSignature sig resps).rejectCalls ≤ 2 ∧
    (confirmSignature sig resps).timerFiresAfterSettle ≤ 1 ∧
    (confirmSignature sig resps).pollsAfterSettle = 0 ∧
    ((confirmSignature sig resps).settledByTimeout = false →
      (confirmSignature sig resps).resolveCalls + (confirmSignature sig resps).rejectCalls = 1 ∧
      (confirmSignature sig resps).timerFiresAfterSettle = 0) :=
  confirmRun_discipline sig resps 0 0

/-- Witness for the amended claim C3 at a concrete trace: a single
instantaneous successful poll settles by a poll response, with exactly one
resolve/reject call and no residual timer. -/
theorem confirmation_settlement_exclusivity_witness :
    (confirmSignature "sigD" [(0, PollResp.found none)]).resolveCalls
      + (confirmSignature "sigD" [(0, PollResp.found none)]).rejectCalls = 1 ∧
    (confirmSignature "sigD" [(0, PollResp.found none)]).timerFiresAfterSettle = 0 :=
  (confirmation_settlement_exclusivity "sigD" [(0, PollResp.found none)]).2.2.2.2 rfl

/-- Rounding to nearest never returns less than the truncation. -/
theorem le_roundHalfEven (q r d : ℕ) : q ≤ roundHalfEven q r d := by
  unfold roundHalfEven
  split_ifs <;> omega

/-- `Nat.log2` is characterized by the enclosing binade. -/
theorem log2_eq_of_bounds {m k : ℕ} (h1 : 2 ^ k ≤ m) (h2 : m < 2 ^ (k + 1)) :
    Nat.log2 m = k := by
  have hm : m ≠ 0 := by
    have : 0 < 2 ^ k := Nat.pos_pow_of_pos _ (by norm_num)
    omega
  apply le_antisymm
  · have := (Nat.log2_lt hm).mpr h2
    omega
  · exact (Nat.le_log2 hm).mpr h1

/-- The double product `100 * 1.1` is `110.00000000000001…` (the excess of
the double 1.1 over 11/10 pushes the product past the half-ulp at 110), so
the ceiling is 111. -/
theorem budgetUnitLimit_100 : budgetUnitLimit 100 = 111 := by
  have hlog : Nat.log2 (100 * 4953959590107546) = 58 :=
    log2_eq_of_bounds (by norm_num) (by norm_num)
  simp only [budgetUnitLimit, hlog]
  decide

/-- The double product `200000 * 1.1` rounds just above 220000, so the
ceiling is 220001. -/
theorem budgetUnitLimit_200000 : budgetUnitLimit 200000 = 220001 := by
  have hlog : Nat.log2 (200000 * 4953959590107546) = 69 :=
    log2_eq_of_bounds (by norm_num) (by norm_num)
  simp only [budgetUnitLimit, hlog]
  decide

/-- The double product `1400000 * 1.1` rounds just above 1540000, so the
ceiling on the default path is 1540001. -/
theorem budgetUnitLimit_1400000 : budgetUnitLimit 1400000 = 1540001 := by
  have hlog : Nat.log2 (1400000 * 4953959590107546) = 72 :=
    log2_eq_of_bounds (by norm_num) (by norm_num)
  simp only [budgetUnitLimit, hlog]
  decide

/-- The padded unit limit never falls below the consumption it was derived
from: the double 1.1 exceeds 1, the rounded product sits within one grid
step of the exact product, and one grid step is below the 10% margin. -/
theorem le_budgetUnitLimit (c : ℕ) : c ≤ budgetUnitLimit c := by
  rcases Nat.eq_zero_or_pos c with rfl | hc
  · simp [budgetUnitLimit]
  · have hc0 : c ≠ 0 := hc.ne'
    simp only [budgetUnitLimit, if_neg hc0]
    set m := c * 4953959590107546 with hmdef
    have hm0 : m ≠ 0 := Nat.mul_ne_zero hc0 (by norm_num)
    have h2m : 2 ^ 52 ≤ m := by
      calc (2 : ℕ) ^ 52 ≤ 4953959590107546 := by norm_num
      _ ≤ c * 4953959590107546 := Nat.le_mul_of_pos_left _ hc
    have hlog : 52 ≤ Nat.log2 m := (Nat.le_log2 hm0).mpr h2m
    set d := 2 ^ (Nat.log2 m - 52) with hddef
    have hdpos : 0 < d := Nat.pos_pow_of_pos _ (by norm_num)
    have hd52 : d * 2 ^ 52 = 2 ^ Nat.log2 m := by
      rw [hddef, ← pow_add, Nat.sub_add_cancel hlog]
    have hdm : d * 2 ^ 52 ≤ m := by
      rw [hd52]
      exact Nat.log2_self_le hm0
    have hd2c : d ≤ 2 * c := by
      have hm53 : m ≤ c * 2 ^ 53 := by
        rw [hmdef]
        exact Nat.mul_le_mul_left c (by norm_num)
      have h1 : d * 2 ^ 52 ≤ (2 * c) * 2 ^ 52 := by
        calc d * 2 ^ 52 ≤ m := hdm
        _ ≤ c * 2 ^ 53 := hm53
        _ = (2 * c) * 2 ^ 52 := by ring
      exact Nat.le_of_mul_le_mul_right h1 (by positivity)
    have hqd : (m / d) * d + m % d = m := by
      rw [Nat.mul_comm]
      exact Nat.div_add_mod m d
    have hrd : m % d < d := Nat.mod_lt _ hdpos
    have hround : (m / d) * d ≤ roundHalfEven (m / d) (m % d) d * d :=
      Nat.mul_le_mul_right _ (le_roundHalfEven _ _ _)
    rw [Nat.le_div_iff_mul_le (by positivity : 0 < (2 : ℕ) ^ 52)]
    omega

/-- Claim C4 counterexample: at the reported nonzero consumption 100, the
code's double-precision `Math.ceil(100 * 1.1)` places 111 in the budget
instruction, not `ceil(100 × 1.10) = 110` — the double nearest 1.1 exceeds
11/10, and the rounded product lands just above 110.  On the zero-reported
path the 1,400,000-unit default is substituted and the limit is 1,540,001,
which differs both from `ceil(0 × 1.10) = 0` and from
`ceil(1,400,000 × 1.10) = 1,540,000`. -/
theorem compute_unit_limit_float_counterexample :
    simulateAndGetBudget ⟨none, none, some 100⟩ none
      = Except.ok (KitInstruction.setComputeUnitLimit 111,
                   KitInstruction.setComputeUnitPrice 50000) ∧
    budgetUnitLimit 100 = 111 ∧
    Nat.ceil ((100 : ℚ) * (11 / 10)) = 110 ∧
    (111 : ℕ) ≠ 110 ∧
    (getComputeUnits ⟨none, none, some 0⟩).result = Except.ok 1400000 ∧
    budgetUnitLimit 1400000 = 1540001 ∧
    Nat.ceil ((1400000 : ℚ) * (11 / 10)) = 1540000 := by
  refine ⟨?_, budgetUnitLimit_100, by norm_num, by norm_num, rfl,
    budgetUnitLimit_1400000, ?_⟩
  · simp only [simulateAndGetBudget, getComputeUnits, unitsOrDefault,
      getPriorityFeeEstimate, DEFAULT_PRIORITY_FEE, budgetUnitLimit_100]
  · rw [show ((1400000 : ℚ) * (11 / 10)) = ((1540000 : ℕ) : ℚ) by norm_num]
    exact Nat.ceil_natCast _

/-- Claim C4 (amended): for every nonzero consumed unit count `c` reported
by the simulation backend, the unit limit in the returned budget
instruction is `Math.ceil(c * 1.1)` evaluated in IEEE-754 double
arithmetic (`budgetUnitLimit c`), which can exceed the exact
`ceil(c × 1.10)` by one when the rounded double product crosses an integer
boundary (as at c = 100 and on the default path); when the reported count
is zero or absent the 1,400,000-unit default is substituted first, making
the limit 1,540,001.  In every case the limit is at least the count it was
derived from. -/
theorem compute_unit_limit_margin (logs : Option (List String)) (c : ℕ)
    (feeResponse : Option (List (Option ℚ))) (h : c ≠ 0) :
    (getComputeUnits ⟨none, logs, some c⟩).result = Except.ok c ∧
    simulateAndGetBudget ⟨none, logs, some c⟩ feeResponse
      = Except.ok (KitInstruction.setComputeUnitLimit (budgetUnitLimit c),
                   KitInstruction.setComputeUnitPrice (getPriorityFeeEstimate feeResponse)) ∧
    c ≤ budgetUnitLimit c ∧
    (∀ u : Option ℕ, unitsOrDefault u ≤ budgetUnitLimit (unitsOrDefault u)) ∧
    budgetUnitLimit 1400000 = 1540001 ∧
    budgetUnitLimit 200000 = 220001 := by
  obtain ⟨n, rfl⟩ : ∃ n, c = n + 1 := ⟨c - 1, by omega⟩
  exact ⟨rfl, rfl, le_budgetUnitLimit _, fun u => le_budgetUnitLimit _,
    budgetUnitLimit_1400000, budgetUnitLimit_200000⟩

/-- Witness for the amended claim C4 at the concrete reported consumption
100: the pipeline returns 100 consumed units and a limit of at least 100,
and the default path yields 1,540,001. -/
theorem compute_unit_limit_margin_witness :
    (getComputeUnits ⟨none, none, some 100⟩).result = Except.ok 100 ∧
    100 ≤ budgetUnitLimit 100 ∧
    budgetUnitLimit 1400000 = 1540001 :=
  ⟨(compute_unit_limit_margin none 100 none (by norm_num)).1,
   (compute_unit_limit_margin none 100 none (by norm_num)).2.2.1,
   (compute_unit_limit_margin none 100 none (by norm_num)).2.2.2.2.1⟩

/-- Claim C10: a simulation result whose error is non-null but whose log
field is null skips the whole error-classification path (the guard needs
both to be truthy): no error is raised, nothing is printed, and the
reported consumed units are returned — with the 1,400,000-unit default
substituted when the count is zero or absent. -/
theorem simulation_error_without_logs_skips (e : ChainErr) (u : Option ℕ) (n : ℕ) :
    (getComputeUnits ⟨some e, none, u⟩).result = Except.ok (unitsOrDefault u) ∧
    (getComputeUnits ⟨some e, none, u⟩).consoleLastLogs = none ∧
    unitsOrDefault none = DEFAULT_COMPUTE_UNITS ∧
    unitsOrDefault (some 0) = DEFAULT_COMPUTE_UNITS ∧
    unitsOrDefault (some (n + 1)) = n + 1 ∧
    DEFAULT_COMPUTE_UNITS = 1400000 :=
  ⟨rfl, rfl, rfl, rfl, rfl, rfl⟩

/-- Claim C6 counterexample: when no log pattern is recognized, the raised
error is the fixed string "Transaction simulation error" — the same value
for two simulations with different log lines — so the error itself does not
carry the log excerpt.  The last log lines go to the console instead. -/
theorem simulation_generic_error_counterexample :
    (getComputeUnits ⟨some ⟨false⟩, some ["Program log: mystery condition A"], some 5⟩).result
      = Except.error "Transaction simulation error" ∧
    (getComputeUnits ⟨some ⟨false⟩, some ["Program log: other condition B"], some 5⟩).result
      = Except.error "Transaction simulation error" ∧
    (getComputeUnits ⟨some ⟨false⟩, some ["Program log: mystery condition A"], some 5⟩).result
      = (getComputeUnits ⟨some ⟨false⟩, some ["Program log: other condition B"], some 5⟩).result ∧
    ["Program log: mystery condition A"] ≠ ["Program log: other condition B"] := by
  refine ⟨by decide, by decide, by decide, by decide⟩

/-- Claim C6 (amended): when simulation reports an on-chain error and no
recognizable pattern is found in the logs, the estimator raises the generic
simulation-failure error with the fixed message
"Transaction simulation error", and prints the last (up to 10) raw log
lines to the console for diagnosis — the excerpt is not embedded in the
error itself. -/
theorem simulation_generic_error_console_logs (e : ChainErr)
    (logs : List String) (u : Option ℕ)
    (hrent : e.insufficientFundsForRent = false)
    (hne : logs ≠ [])
    (hfunds : logs.any (fun log =>
        includes log "insufficient funds"
          || includes log "Error: insufficient funds") = false)
    (hclass : logs.findSome? classifyLog = none) :
    (getComputeUnits ⟨some e, some logs, u⟩).result
      = Except.error "Transaction simulation error" ∧
    (getComputeUnits ⟨some e, some logs, u⟩).consoleLastLogs
      = some (logs.drop (logs.length - 10)) := by
  have hlen : ¬ (logs.length = 0) := by
    simpa using hne
  simp [getComputeUnits, hrent, hlen, hfunds, hclass]

/-- Witness for the amended claim C6 at a concrete unrecognized log. -/
theorem simulation_generic_error_console_logs_witness :
    (getComputeUnits ⟨some ⟨false⟩, some ["Program abc failed for reasons"], some 3⟩).result
      = Except.error "Transaction simulation error" ∧
    (getComputeUnits ⟨some ⟨false⟩, some ["Program abc failed for reasons"], some 3⟩).consoleLastLogs
      = some ["Program abc failed for reasons"] :=
  simulation_generic_error_console_logs ⟨false⟩ ["Program abc failed for reasons"]
    (some 3) rfl (by decide) (by decide) (by decide)

/-- Claim C7: for every list of business instructions, the assembler's
final instruction list is exactly
`[unitLimitInstruction, unitPriceInstruction, ...businessInstructions]`,
so the envelope holds the business count plus two. -/
theorem assembler_budget_instructions_first (instructions : List KitInstruction)
    (feePayer blockhash : String) (sim : SimulationValue)
    (feeResponse : Option (List (Option ℚ))) (c : ℕ)
    (h : (getComputeUnits sim).result = Except.ok c) :
    prepareTransaction instructions feePayer blockhash sim feeResponse
      = Except.ok ⟨feePayer, blockhash,
          KitInstruction.setComputeUnitLimit (budgetUnitLimit c)
            :: KitInstruction.setComputeUnitPrice (getPriorityFeeEstimate feeResponse)
            :: instructions⟩ ∧
    (prepareTransaction instructions feePayer blockhash sim feeResponse).map
        (fun env => env.instructions.length)
      = Except.ok (instructions.length + 2) := by
  have hbudget : simulateAndGetBudget sim feeResponse
      = Except.ok (KitInstruction.setComputeUnitLimit (budgetUnitLimit c),
                   KitInstruction.setComputeUnitPrice (getPriorityFeeEstimate feeResponse)) := by
    rw [simulateAndGetBudget, h]
  have hlist : getComputeBudget instructions sim feeResponse
      = Except.ok (KitInstruction.setComputeUnitLimit (budgetUnitLimit c)
          :: KitInstruction.setComputeUnitPrice (getPriorityFeeEstimate feeResponse)
          :: instructions) := by
    rw [getComputeBudget, hbudget]
  rw [prepareTransaction, hlist]
  refine ⟨rfl, ?_⟩
  simp [Except.map]

/-- Witness for claim C7: one business instruction yields an envelope with
exactly 3 instructions, the 2 budget instructions first. -/
theorem assembler_budget_instructions_first_witness :
    prepareTransaction [KitInstruction.business "progX" [1, 2]] "payer" "hash"
        ⟨none, none, some 100⟩ none
      = Except.ok ⟨"payer", "hash",
          [KitInstruction.setComputeUnitLimit (budgetUnitLimit 100),
           KitInstruction.setComputeUnitPrice (getPriorityFeeEstimate none),
           KitInstruction.business "progX" [1, 2]]⟩ ∧
    (prepareTransaction [KitInstruction.business "progX" [1, 2]] "payer" "hash"
        ⟨none, none, some 100⟩ none).map (fun env => env.instructions.length)
      = Except.ok 3 :=
  assembler_budget_instructions_first [KitInstruction.business "progX" [1, 2]]
    "payer" "hash" ⟨none, none, some 100⟩ none 100 rfl

/-- Claim C8: the estimator's median of a fee sample list equals the middle
value of any sorted rearrangement of the samples when the count is odd, and
the average of the two middle values when the count is even. -/
theorem median_matches_sorted_middle (fees l : List ℚ) (hp : List.Perm fees l)
    (hs : List.Sorted (fun a b => a ≤ b) l) :
    (fees.length % 2 = 1 → medianFee fees = l.getD (fees.length / 2) 0) ∧
    (fees.length % 2 = 0 → fees ≠ [] →
      medianFee fees
        = (l.getD (fees.length / 2 - 1) 0 + l.getD (fees.length / 2) 0) / 2) := by
  have hsort : List.insertionSort (fun a b => a ≤ b) fees = l := by
    exact List.eq_of_perm_of_sorted
      ((List.perm_insertionSort (fun a b => a ≤ b) fees).trans hp)
      (List.sorted_insertionSort (fun a b => a ≤ b) fees) hs
  constructor
  · intro hodd
    have hord : ¬ (fees.length % 2 = 0) := by omega
    simp only [medianFee, hsort, if_neg hord]
  · intro heven _
    simp only [medianFee, hsort, if_pos heven]

/-- Witness for claim C8: an odd and an even concrete fee sample list. -/
theorem median_matches_sorted_middle_witness :
    medianFee [3, 1, 2] = 2 ∧ medianFee [4, 1, 3, 2] = 5 / 2 := by
  constructor
  · have h := (median_matches_sorted_middle [3, 1, 2] [1, 2, 3]
      (by decide) (by decide)).1 (by decide)
    simpa using h
  · have h := (median_matches_sorted_middle [4, 1, 3, 2] [1, 2, 3, 4]
      (by decide) (by decide)).2 (by decide) (by decide)
    rw [h]
    norm_num

/-- Claim C9: the estimated priority fee always lies in
`[DEFAULT_PRIORITY_FEE, DEFAULT_PRIORITY_FEE * 10]`, and equals the sample
median whenever the median of the valid samples already lies in that
range. -/
theorem fee_clamped_to_range (response : Option (List (Option ℚ))) :
    DEFAULT_PRIORITY_FEE ≤ getPriorityFeeEstimate response ∧
    getPriorityFeeEstimate response ≤ DEFAULT_PRIORITY_FEE * 10 ∧
    (∀ result : List (Option ℚ), response = some result →
      DEFAULT_PRIORITY_FEE ≤ medianFee (result.filterMap id) →
      medianFee (result.filterMap id) ≤ DEFAULT_PRIORITY_FEE * 10 →
      getPriorityFeeEstimate response = medianFee (result.filterMap id)) := by
  have hD : (0 : ℚ) < DEFAULT_PRIORITY_FEE := by
    rw [DEFAULT_PRIORITY_FEE]; norm_num
  have hD10 : DEFAULT_PRIORITY_FEE ≤ DEFAULT_PRIORITY_FEE * 10 := by nlinarith
  cases response with
  | none =>
      refine ⟨le_refl _, hD10, ?_⟩
      intro result hr _ _
      exact absurd hr (by simp)
  | some result =>
      by_cases hemp : (result.filterMap id).length = 0
      · simp only [getPriorityFeeEstimate, if_pos hemp]
        refine ⟨le_refl _, hD10, ?_⟩
        intro result2 hr hlow _
        injection hr with h
        subst h
        have hnil : result.filterMap id = ([] : List ℚ) := List.length_eq_zero.mp hemp
        rw [hnil] at hlow
        have hzero : medianFee ([] : List ℚ) = 0 := by norm_num [medianFee]
        rw [hzero] at hlow
        exact absurd hlow (by norm_num [DEFAULT_PRIORITY_FEE])
      · simp only [getPriorityFeeEstimate, if_neg hemp]
        refine ⟨le_min (le_max_right _ _) hD10, min_le_right _ _, ?_⟩
        intro result2 hr hlow hhigh
        injection hr with h
        subst h
        rw [max_eq_left hlow, min_eq_left hhigh]

/-- Witness for claim C9: a single in-range sample of 60000 is returned
unchanged. -/
theorem fee_clamped_to_range_witness :
    DEFAULT_PRIORITY_FEE ≤ getPriorityFeeEstimate (some [some 60000]) ∧
    getPriorityFeeEstimate (some [some 60000]) ≤ DEFAULT_PRIORITY_FEE * 10 ∧
    getPriorityFeeEstimate (some [some 60000]) = medianFee [(60000 : ℚ)] := by
  have hfm : List.filterMap id [some (60000 : ℚ)] = [60000] := rfl
  have hmed : medianFee [(60000 : ℚ)] = 60000 := by decide
  refine ⟨(fee_clamped_to_range (some [some 60000])).1,
    (fee_clamped_to_range (some [some 60000])).2.1, ?_⟩
  have h := (fee_clamped_to_range (some [some 60000])).2.2 [some 60000] rfl
    (by rw [hfm, hmed]; norm_num [DEFAULT_PRIORITY_FEE])
    (by rw [hfm, hmed]; norm_num [DEFAULT_PRIORITY_FEE])
  simpa using h

/-- Pointwise round trip of the role mapping: converting a legacy account
entry to a modern role and back with the repository's own flag derivation
recovers the original booleans. -/
theorem legacy_account_roundtrip (k : LegacyAccountMeta) :
    LegacyAccountMeta.mk
        (ModernAccountMeta.mk k.pubkey (roleFromFlags k.isSigner k.isWritable)).address
        (legacyIsSigner (roleFromFlags k.isSigner k.isWritable))
        (legacyIsWritable (roleFromFlags k.isSigner k.isWritable)) = k := by
  obtain ⟨p, s, w⟩ := k
  cases s <;> cases w <;> rfl

/-- Claim C5: the legacy-to-modern adaptation is total, preserves the
program identifier and data bytes exactly, maps the four legacy
(signer, writable) boolean pairs to the four distinct documented roles, and
the repository's own modern-to-legacy conversion inverts it. -/
theorem interop_adapter_total_lossless (ix : LegacyTransactionInstruction) :
    (fromLegacyTransactionInstruction ix).programAddress = ix.programId ∧
    (fromLegacyTransactionInstruction ix).data = ix.data ∧
    toLegacyInstruction (fromLegacyTransactionInstruction ix) = ix ∧
    roleFromFlags false false = AccountRole.readonly ∧
    roleFromFlags false true = AccountRole.writable ∧
    roleFromFlags true false = AccountRole.readonlySigner ∧
    roleFromFlags true true = AccountRole.writableSigner ∧
    List.Pairwise (fun a b => a ≠ b)
      [AccountRole.readonly, AccountRole.writable,
       AccountRole.readonlySigner, AccountRole.writableSigner] := by
  refine ⟨rfl, rfl, ?_, rfl, rfl, rfl, rfl, by decide⟩
  obtain ⟨pid, keys, data⟩ := ix
  simp only [toLegacyInstruction, fromLegacyTransactionInstruction, List.map_map]
  congr 1
  induction keys with
  | nil => rfl
  | cons k t iht =>
      simp only [List.map_cons, iht, Function.comp_apply]
      rw [legacy_account_roundtrip k]

/-- Witness for claim C5 at a concrete legacy instruction. -/
theorem interop_adapter_total_lossless_witness :
    toLegacyInstruction (fromLegacyTransactionInstruction
        ⟨"prog11", [⟨"acc1", true, false⟩, ⟨"acc2", false, true⟩], [1, 2, 3]⟩)
      = ⟨"prog11", [⟨"acc1", true, false⟩, ⟨"acc2", false, true⟩], [1, 2, 3]⟩ :=
  (interop_adapter_total_lossless
    ⟨"prog11", [⟨"acc1", true, false⟩, ⟨"acc2", false, true⟩], [1, 2, 3]⟩).2.2.1

end SquadsScripting
